import Mathlib

/-!
# Verification of the Blades dynamic-value rendering core (`src/types.rs`)

Shallow embedding of the rendering-contract implementations of `src/types.rs`:
the `Ancestors` path-segmentation view, the `Any` tagged union of TOML values,
and the `DateTime` wrapper with its single-character field lookup and its
multi-format textual parser.

Rendering is modelled by making each operation return the text it writes into
the encoder (`String`), and each section-rendering operation return the list of
body invocations it performs (`SecCall`), in order.  Field lookups return
`Option`: `none` models the `Ok(false)` "not found" outcome (nothing written),
`some` the `Ok(true)` outcome together with what was rendered.  Encoder write
errors are not modelled: the encoders used here are infallible string buffers,
and every operation only propagates such errors unchanged.
-/

set_option autoImplicit false

/-- One invocation of a section body: either `section.with(c).render(encoder)`
(the body is rendered once with `c` pushed as the nested context) or a bare
`section.render(encoder)` (rendered once without changing the context). -/
inductive SecCall (α : Type) where
  | withCtx (c : α)
  | plain
  deriving DecidableEq, Repr

/-- `std::path::is_separator` restricted to Unix, where the only path
separator character is `/` (the case the specification and the page paths of
the tool use). -/
def is_separator (c : Char) : Bool := c = '/'

/-- One segment of a path (`Segment` in the source, a pair whose fields are
renamed to `name` and `full` for the template engine): `name` is this segment,
`full` the full path up to this segment. -/
structure Segment where
  name : String
  full : String
  deriving DecidableEq, Repr

/-- `&s[a..b]` on the character level: the substring of `cs` from index `a`
(inclusive) to `b` (exclusive). -/
def strSlice (cs : List Char) (a b : Nat) : String :=
  String.mk ((cs.drop a).take (b - a))

/-- The indices of the separator characters of the text starting at absolute
position `i`, in increasing order. -/
def sepIndicesAux : List Char → Nat → List Nat
  | [], _ => []
  | c :: rest, i =>
    if is_separator c then i :: sepIndicesAux rest (i + 1) else sepIndicesAux rest (i + 1)

/-- The indices of the separator characters of `cs`, in increasing order:
the index component of `s.match_indices(is_separator)` (each match has
length 1, since `/` is one byte and one char). -/
def sepIndices (cs : List Char) : List Nat :=
  sepIndicesAux cs 0

/-- Escaping as performed by the ramhorns `Encoder::write_escaped` sink the
renderers write into: `&`, `<`, `>` and `"` are replaced by their HTML
entities, every other character is kept. -/
def escapeChar (c : Char) : String :=
  if c = '&' then "&amp;"
  else if c = '<' then "&lt;"
  else if c = '>' then "&gt;"
  else if c = '"' then "&quot;"
  else String.mk [c]

/-- `write_escaped` over a whole string. -/
def escapeHtml (s : String) : String :=
  String.join (s.data.map escapeChar)

namespace Ancestors

/-- `Ancestors::is_truthy`: the wrapped path text is non-empty.  The
`Ancestors` newtype over `Cow<str>` is modelled by its underlying string. -/
def is_truthy (s : String) : Bool := !s.isEmpty

/-- `Ancestors::render_escaped`: when the path text is non-empty, write an
unescaped `/` followed by the text escaped; otherwise write nothing. -/
def render_escaped (s : String) : String :=
  if s.isEmpty then "" else "/" ++ escapeHtml s

/-- `Ancestors::render_unescaped`: when the path text is non-empty, write `/`
followed by the raw text; otherwise write nothing. -/
def render_unescaped (s : String) : String :=
  if s.isEmpty then "" else "/" ++ s

/-- The segments emitted by the `for (i, sep) in s.match_indices(is_separator)`
loop: the k-th separator index `i` is paired with the `previous` value at that
point (`0` for the first iteration, previous index + 1 afterwards, separator
matches having length 1), producing `Segment(&s[previous..i], &s[0..i])`. -/
def scanSegments (cs : List Char) : List Segment :=
  ((0 :: (sepIndices cs).map (· + 1)).zip (sepIndices cs)).map
    (fun p => ⟨strSlice cs p.1 p.2, strSlice cs 0 p.2⟩)

/-- `Ancestors::render_section`: nothing on the empty text; otherwise one body
invocation per separator found by the left-to-right scan, followed by a single
whole-string segment only when the text contains no separator at all. -/
def render_section (s : String) : List (SecCall Segment) :=
  let cs := s.data
  if cs.isEmpty then []
  else
    (scanSegments cs).map SecCall.withCtx ++
      (if cs.any is_separator then [] else [SecCall.withCtx ⟨s, s⟩])

end Ancestors

/-!
## The `DateTime` wrapper

`DateTime` wraps `chrono::NaiveDateTime`.  The chrono value is modelled by its
calendar components (the sub-second part is parsed but discarded, as no
operation of `src/types.rs` ever reads it).  `chrono` guarantees the
components of any constructed value form a valid proleptic-Gregorian calendar
date-time; `NaiveDateTime.Valid` states that guarantee.
-/

/-- Model of `chrono::NaiveDateTime`: a calendar date-time without offset. -/
structure NaiveDateTime where
  year : Int
  month : Nat
  day : Nat
  hour : Nat
  minute : Nat
  second : Nat
  deriving DecidableEq, Repr

/-- Proleptic-Gregorian leap year. -/
def isLeapYear (y : Int) : Bool :=
  (y % 4 == 0 && y % 100 != 0) || y % 400 == 0

/-- Number of days of month `m` of year `y`. -/
def daysInMonth (y : Int) (m : Nat) : Nat :=
  if m = 2 then (if isLeapYear y then 29 else 28)
  else if m = 4 ∨ m = 6 ∨ m = 9 ∨ m = 11 then 30
  else 31

/-- Validity of the calendar components, as `chrono` guarantees them. -/
def NaiveDateTime.Valid (t : NaiveDateTime) : Prop :=
  1 ≤ t.month ∧ t.month ≤ 12 ∧ 1 ≤ t.day ∧ t.day ≤ daysInMonth t.year t.month ∧
    t.hour ≤ 23 ∧ t.minute ≤ 59 ∧ t.second ≤ 59

instance (t : NaiveDateTime) : Decidable t.Valid := by
  unfold NaiveDateTime.Valid; infer_instance

/-- Days of the civil calendar date since 1970-01-01 (the standard
days-from-civil algorithm the chrono date arithmetic computes). -/
def daysFromCivil (y0 : Int) (m d : Nat) : Int :=
  let y : Int := if m ≤ 2 then y0 - 1 else y0
  let era : Int := (if 0 ≤ y then y else y - 399) / 400
  let yoe : Int := y - era * 400
  let mp : Int := if 2 < m then (m : Int) - 3 else (m : Int) + 9
  let doy : Int := (153 * mp + 2) / 5 + (d : Int) - 1
  let doe : Int := yoe * 365 + yoe / 4 - yoe / 100 + doy
  era * 146097 + doe - 719468

/-- Inverse of `daysFromCivil`: the civil date `(year, month, day)` of the
given number of days since 1970-01-01. -/
def civilFromDays (z0 : Int) : Int × Nat × Nat :=
  let z : Int := z0 + 719468
  let era : Int := (if 0 ≤ z then z else z - 146096) / 146097
  let doe : Int := z - era * 146097
  let yoe : Int := (doe - doe / 1460 + doe / 36524 - doe / 146096) / 365
  let y : Int := yoe + era * 400
  let doy : Int := doe - (365 * yoe + yoe / 4 - yoe / 100)
  let mp : Int := (5 * doy + 2) / 153
  let d : Int := doy - (153 * mp + 2) / 5 + 1
  let m : Int := if mp < 10 then mp + 3 else mp - 9
  (if m ≤ 2 then y + 1 else y, m.toNat, d.toNat)

/-- `chrono`'s `weekday().num_days_from_sunday()`: 0 for Sunday … 6 for
Saturday.  1970-01-01 was a Thursday (index 4). -/
def NaiveDateTime.weekdayFromSunday (t : NaiveDateTime) : Nat :=
  ((daysFromCivil t.year t.month t.day + 4) % 7).toNat

/-- `chrono`'s `month0()`: the zero-indexed month. -/
def NaiveDateTime.month0 (t : NaiveDateTime) : Nat := t.month - 1

/-- The `DateTime` newtype of `src/types.rs` around `chrono::NaiveDateTime`. -/
structure DateTime where
  naive : NaiveDateTime
  deriving DecidableEq, Repr

/-- The `WEEKDAYS` table of `DateTime::render_field_escaped`. -/
def WEEKDAYS : List String := ["Sun", "Mon", "Tue", "Wed", "Thu", "Fri", "Sat"]

/-- The `MONTHS` table of `DateTime::render_field_escaped`. -/
def MONTHS : List String :=
  ["Jan", "Feb", "Mar", "Apr", "May", "Jun", "Jul", "Aug", "Sep", "Oct", "Nov", "Dec"]

/-- The `NUMS` table of `DateTime::render_field_escaped`: the 60 two-character
zero-padded strings `"00"`‥`"59"`. -/
def NUMS : List String :=
  ["00", "01", "02", "03", "04", "05", "06", "07", "08", "09", "10", "11", "12", "13",
   "14", "15", "16", "17", "18", "19", "20", "21", "22", "23", "24", "25", "26", "27",
   "28", "29", "30", "31", "32", "33", "34", "35", "36", "37", "38", "39", "40", "41",
   "42", "43", "44", "45", "46", "47", "48", "49", "50", "51", "52", "53", "54", "55",
   "56", "57", "58", "59"]

/-- `DateTime::render_section`: always renders the block exactly once with the
date itself pushed as the nested context (`section.with(self).render`). -/
def DateTime.render_section (dt : DateTime) : List (SecCall DateTime) :=
  [SecCall.withCtx dt]

/-- `DateTime::render_field_escaped`.  The field name is modelled as its list
of UTF-8 bytes (`name.len()` and `name.bytes().next()` in the source are
byte-based); the `u64` hash parameter is unused by the source and omitted.
`none` models `Ok(false)` (name not found, nothing written); `some out` models
`Ok(true)` after writing `out`.  Indexing a table out of bounds is modelled by
`List.getD` with default `""` (the source would panic; the bounds are
established separately for valid dates). -/
def DateTime.render_field_escaped (dt : DateTime) (name : List Nat) : Option String :=
  if name.length ≠ 1 then none
  else
    let b := name.headD 0
    if b = Char.toNat 'y' then some (toString dt.naive.year)
    else if b = Char.toNat 'm' then some (NUMS.getD dt.naive.month "")
    else if b = Char.toNat 'd' then some (NUMS.getD dt.naive.day "")
    else if b = Char.toNat 'e' then some (toString dt.naive.day)
    else if b = Char.toNat 'H' then some (NUMS.getD dt.naive.hour "")
    else if b = Char.toNat 'M' then some (NUMS.getD dt.naive.minute "")
    else if b = Char.toNat 'S' then some (NUMS.getD dt.naive.second "")
    else if b = Char.toNat 'a' then some (WEEKDAYS.getD dt.naive.weekdayFromSunday "")
    else if b = Char.toNat 'b' then some (MONTHS.getD dt.naive.month0 "")
    else none

/-- `DateTime::render_field_unescaped` simply defers to the escaped lookup. -/
def DateTime.render_field_unescaped (dt : DateTime) (name : List Nat) : Option String :=
  dt.render_field_escaped name

/-!
## Textual date parsing (`DateTimeVisitor::visit_map`)

The deserializer receives the raw text of a TOML datetime and tries, in order:
`v.parse::<NaiveDateTime>()`, then `v.parse::<NaiveDate>().map(|d|
d.and_hms(0,0,0))`, then `NaiveDateTime::parse_from_str(v, "%F %T%.f")`, then
`v.parse::<DateTime<FixedOffset>>().map(|d| d.naive_utc())`.  The chrono
parsers are modelled component-wise: a 4-digit year, 2-digit month/day
separated by `-`, 2-digit hour/minute/second separated by `:`, an optional
fractional part `.digits` (consumed and discarded), and for the offset-aware
format a trailing `Z` or `±HH:MM` offset that is subtracted to reach UTC.
-/

/-- The numeric value of a digit string. -/
def digitsToNat (ds : List Char) : Nat :=
  ds.foldl (fun a c => a * 10 + (c.toNat - 48)) 0

/-- Split a character list into its leading digits and the rest. -/
def spanDigits (cs : List Char) : List Char × List Char :=
  (cs.takeWhile Char.isDigit, cs.dropWhile Char.isDigit)

/-- Parse a leading `YYYY-MM-DD` calendar date, returning it with the unread
rest; the components must form a valid date (as chrono checks). -/
def parseDatePart (cs : List Char) : Option ((Int × Nat × Nat) × List Char) :=
  let (ys, r1) := spanDigits cs
  if ys.length ≠ 4 then none
  else
    match r1 with
    | '-' :: r2 =>
      let (ms, r3) := spanDigits r2
      if ms.length ≠ 2 then none
      else
        match r3 with
        | '-' :: r4 =>
          let (ds, r5) := spanDigits r4
          if ds.length ≠ 2 then none
          else
            let y : Int := digitsToNat ys
            let m := digitsToNat ms
            let d := digitsToNat ds
            if 1 ≤ m ∧ m ≤ 12 ∧ 1 ≤ d ∧ d ≤ daysInMonth y m then some ((y, m, d), r5)
            else none
        | _ => none
    | _ => none

/-- Consume an optional fractional-second part `.digits` (`%.f`): absent, or a
dot followed by at least one digit; the digits are discarded. -/
def parseFracPart : List Char → Option (List Char)
  | '.' :: rest =>
    let (ds, r) := spanDigits rest
    if ds.isEmpty then none else some r
  | cs => some cs

/-- Parse a leading `HH:MM:SS[.frac]` time of day, returning it with the
unread rest; the components must be in range (as chrono checks). -/
def parseTimePart (cs : List Char) : Option ((Nat × Nat × Nat) × List Char) :=
  let (hs, r1) := spanDigits cs
  if hs.length ≠ 2 then none
  else
    match r1 with
    | ':' :: r2 =>
      let (ms, r3) := spanDigits r2
      if ms.length ≠ 2 then none
      else
        match r3 with
        | ':' :: r4 =>
          let (ss, r5) := spanDigits r4
          if ss.length ≠ 2 then none
          else
            let h := digitsToNat hs
            let mi := digitsToNat ms
            let s := digitsToNat ss
            if h ≤ 23 ∧ mi ≤ 59 ∧ s ≤ 59 then
              (parseFracPart r5).map (fun r => ((h, mi, s), r))
            else none
        | _ => none
    | _ => none

/-- Parse a leading `HH:MM` pair as a number of minutes. -/
def parseHMPart (cs : List Char) : Option (Nat × List Char) :=
  let (hs, r1) := spanDigits cs
  if hs.length ≠ 2 then none
  else
    match r1 with
    | ':' :: r2 =>
      let (ms, r3) := spanDigits r2
      if ms.length ≠ 2 then none
      else
        let h := digitsToNat hs
        let mi := digitsToNat ms
        if h ≤ 23 ∧ mi ≤ 59 then some (h * 60 + mi, r3) else none
    | _ => none

/-- Parse a trailing UTC offset: `Z` or `±HH:MM`, as minutes east of UTC. -/
def parseOffsetPart : List Char → Option (Int × List Char)
  | 'Z' :: r => some (0, r)
  | '+' :: r => (parseHMPart r).map (fun p => ((p.1 : Int), p.2))
  | '-' :: r => (parseHMPart r).map (fun p => (-(p.1 : Int), p.2))
  | _ => none

/-- `v.parse::<NaiveDateTime>()`: `YYYY-MM-DDTHH:MM:SS[.frac]`, whole input. -/
def parseNaiveDateTimeIso (v : String) : Option NaiveDateTime :=
  match parseDatePart v.data with
  | some (ymd, 'T' :: r) =>
    match parseTimePart r with
    | some (hms, []) => some ⟨ymd.1, ymd.2.1, ymd.2.2, hms.1, hms.2.1, hms.2.2⟩
    | _ => none
  | _ => none

/-- `v.parse::<NaiveDate>()`: a bare `YYYY-MM-DD` consuming the whole input. -/
def parseNaiveDate (v : String) : Option (Int × Nat × Nat) :=
  match parseDatePart v.data with
  | some (ymd, []) => some ymd
  | _ => none

/-- `NaiveDateTime::parse_from_str(v, "%F %T%.f")`: the space-separated
format `YYYY-MM-DD HH:MM:SS[.frac]`. -/
def parseSpaceSeparated (v : String) : Option NaiveDateTime :=
  match parseDatePart v.data with
  | some (ymd, ' ' :: r) =>
    match parseTimePart r with
    | some (hms, []) => some ⟨ymd.1, ymd.2.1, ymd.2.2, hms.1, hms.2.1, hms.2.2⟩
    | _ => none
  | _ => none

/-- Seconds since 1970-01-01T00:00:00 of a date-time. -/
def NaiveDateTime.epochSeconds (t : NaiveDateTime) : Int :=
  daysFromCivil t.year t.month t.day * 86400 +
    (t.hour : Int) * 3600 + (t.minute : Int) * 60 + (t.second : Int)

/-- The date-time of a number of seconds since 1970-01-01T00:00:00. -/
def NaiveDateTime.ofEpochSeconds (secs : Int) : NaiveDateTime :=
  let sod := (secs % 86400).toNat
  let days := (secs - secs % 86400) / 86400
  let ymd := civilFromDays days
  ⟨ymd.1, ymd.2.1, ymd.2.2, sod / 3600, sod % 3600 / 60, sod % 60⟩

/-- `v.parse::<DateTime<FixedOffset>>().map(|d| d.naive_utc())`: an
offset-aware `YYYY-MM-DDTHH:MM:SS[.frac]Z|±HH:MM`, converted to the UTC
instant and the offset dropped. -/
def parseFixedOffsetUtc (v : String) : Option NaiveDateTime :=
  match parseDatePart v.data with
  | some (ymd, 'T' :: r) =>
    match parseTimePart r with
    | some (hms, r2) =>
      match parseOffsetPart r2 with
      | some (offMinutes, []) =>
        some (NaiveDateTime.ofEpochSeconds
          ((NaiveDateTime.mk ymd.1 ymd.2.1 ymd.2.2 hms.1 hms.2.1 hms.2.2).epochSeconds
            - offMinutes * 60))
      | _ => none
    | _ => none
  | _ => none

namespace DateTimeVisitor

/-- `DateTimeVisitor::visit_map` on the raw datetime text `v`: the four parse
attempts in order, short-circuiting on the first success (`or_else` chain);
when all fail, the error message names the input text. -/
def visit_map (v : String) : Except String DateTime :=
  match parseNaiveDateTimeIso v with
  | some t => .ok ⟨t⟩
  | none =>
    match parseNaiveDate v with
    | some ymd => .ok ⟨⟨ymd.1, ymd.2.1, ymd.2.2, 0, 0, 0⟩⟩
    | none =>
      match parseSpaceSeparated v with
      | some t => .ok ⟨t⟩
      | none =>
        match parseFixedOffsetUtc v with
        | some t => .ok ⟨t⟩
        | none => .error ("unable to parse date and time from " ++ v)

end DateTimeVisitor

/-!
## The `Any` tagged union

`Any` is the sum of the value shapes a TOML file can hold.  The `f64` payload
is modelled by `Float` (no claim depends on its textual rendering), the
`HashMap` payload by an association list (lookup by key; the `u64` name hash
the engine passes alongside the literal name is only an optimization of that
lookup and is omitted).  The `Vec` and `HashMap` rendering behaviour the
variants delegate to is that of the ramhorns `Content` implementations, as the
specification describes it: a list renders its section once per element with
the element as context, a map renders its section once with itself as context
and resolves fields by key lookup; neither writes direct (non-section) output.
-/

/-- The `Any` sum type of `src/types.rs`. -/
inductive Any where
  | number (n : Float)
  | string (s : String)
  | dateTime (dt : DateTime)
  | list (items : List Any)
  | map (entries : List (String × Any))

/-- `Any::is_truthy`: a `List`/`Map` is truthy iff non-empty, every other
variant is falsy. -/
def Any.is_truthy : Any → Bool
  | .list items => !items.isEmpty
  | .map entries => !entries.isEmpty
  | _ => false

/-- `f64`'s `Content` rendering writes the number's decimal text; the exact
digits are the formatter's concern and no claim depends on them. -/
def floatDisplay (n : Float) : String := toString n

/-- `Any::render_escaped`: dispatch to the contained variant.  Numbers write
their decimal text and strings their text escaped; the `DateTime`, `Vec` and
`HashMap` implementations do not override direct rendering, which writes
nothing. -/
def Any.render_escaped : Any → String
  | .number n => floatDisplay n
  | .string s => escapeHtml s
  | _ => ""

/-- `Any::render_unescaped`: as `render_escaped` with the string unescaped. -/
def Any.render_unescaped : Any → String
  | .number n => floatDisplay n
  | .string s => s
  | _ => ""

/-- Key lookup in the map payload (`HashMap::get` by the field name). -/
def lookupEntry (entries : List (String × Any)) (name : String) : Option Any :=
  (entries.find? (fun e => e.1 == name)).map (fun e => e.2)

/-- `Any::render_section`: a `List` renders the body once per element with the
element as nested context; a `Map` delegates to the mapping's section
behaviour, rendering once with the map itself as context; every other variant
falls through to `section.render(encoder)`, one body render with the context
unchanged. -/
def Any.render_section : Any → List (SecCall Any)
  | .list items => items.map SecCall.withCtx
  | .map entries => [SecCall.withCtx (.map entries)]
  | _ => [SecCall.plain]

/-- `Any::render_field_escaped`: only a `Map` resolves the name, rendering the
found value escaped; every other variant answers `Ok(false)` (modelled
`none`), writing nothing. -/
def Any.render_field_escaped (a : Any) (name : String) : Option String :=
  match a with
  | .map entries => (lookupEntry entries name).map Any.render_escaped
  | _ => none

/-- `Any::render_field_unescaped`: as the escaped lookup, rendering raw. -/
def Any.render_field_unescaped (a : Any) (name : String) : Option String :=
  match a with
  | .map entries => (lookupEntry entries name).map Any.render_unescaped
  | _ => none

/-- `Any::render_field_section`: only a `Map` resolves the name, rendering the
found value's own section; every other variant answers `Ok(false)`. -/
def Any.render_field_section (a : Any) (name : String) : Option (List (SecCall Any)) :=
  match a with
  | .map entries => (lookupEntry entries name).map Any.render_section
  | _ => none

/-- `Any::render_field_inverse`: only a `Map` resolves the name; an inverse
section body is rendered (context unchanged) exactly when the found value is
falsy.  Every other variant answers `Ok(false)`. -/
def Any.render_field_inverse (a : Any) (name : String) : Option (List (SecCall Any)) :=
  match a with
  | .map entries =>
    (lookupEntry entries name).map (fun v => if v.is_truthy then [] else [SecCall.plain])
  | _ => none

/-!
## Spec-side definitions

These two definitions follow the specification's words rather than the source;
they exist only to be compared against the source-derived definitions above.
-/

/-- The left-to-right scan the specification describes for path segmentation:
walk the text; at every separator found at offset `i`, emit
`Segment{name: text[previous_end..i], full: text[0..i]}` and advance past the
separator.  `full` is the whole text, `i` the absolute offset of the head of
the remaining list, `previousEnd` the offset just past the last separator. -/
def specScan (full : List Char) : List Char → Nat → Nat → List Segment
  | [], _, _ => []
  | c :: rest, i, previousEnd =>
    if is_separator c then
      ⟨strSlice full previousEnd i, strSlice full 0 i⟩ :: specScan full rest (i + 1) (i + 1)
    else
      specScan full rest (i + 1) previousEnd

/-- The segments the specification prescribes for a non-empty text: the
separator scan when the text contains a separator, otherwise exactly one
whole-text segment. -/
def specSegments (cs : List Char) : List Segment :=
  if cs.any is_separator then specScan cs cs 0 0
  else [⟨String.mk cs, String.mk cs⟩]

/-- The zero-padded two-digit decimal text of `n`, as the specification
describes the entries of `NUMS`. -/
def zeroPad2 (n : Nat) : String :=
  (if n < 10 then "0" else "") ++ toString n

/-!
## Helper lemmas
-/

theorem sepIndicesAux_eq_nil_iff (cs : List Char) (i : Nat) :
    sepIndicesAux cs i = [] ↔ cs.any is_separator = false := by
  induction cs generalizing i with
  | nil => simp [sepIndicesAux]
  | cons c rest ih =>
    by_cases h : is_separator c
    · simp [sepIndicesAux, h]
    · simp [sepIndicesAux, h, ih]

theorem length_sepIndicesAux (cs : List Char) (i : Nat) :
    (sepIndicesAux cs i).length = cs.countP is_separator := by
  induction cs generalizing i with
  | nil => simp [sepIndicesAux]
  | cons c rest ih =>
    by_cases h : is_separator c <;>
      simp [sepIndicesAux, h, ih, List.countP_cons]

theorem zip_scan_eq_specScan (full rest : List Char) (i prev : Nat) :
    (((prev :: (sepIndicesAux rest i).map (· + 1)).zip (sepIndicesAux rest i)).map
      (fun p => Segment.mk (strSlice full p.1 p.2) (strSlice full 0 p.2))) =
      specScan full rest i prev := by
  induction rest generalizing i prev with
  | nil => simp [sepIndicesAux, specScan]
  | cons c r ih =>
    by_cases h : is_separator c
    · simp only [sepIndicesAux, h, if_pos, specScan, List.map_cons, List.zip_cons_cons]
      exact congrArg _ (ih (i + 1) (i + 1))
    · simp only [sepIndicesAux, h, Bool.false_eq_true, if_false, specScan, if_neg]
      exact ih (i + 1) prev

theorem scanSegments_eq_specScan (cs : List Char) :
    Ancestors.scanSegments cs = specScan cs cs 0 0 := by
  simpa [Ancestors.scanSegments, sepIndices] using zip_scan_eq_specScan cs cs 0 0

/-- C1 counterexample: on `"a/b/c"` the section body is not invoked three
times with `{a,a}`, `{b,a/b}`, `{c,a/b/c}` — the scan emits one segment per
separator only, and the whole-string segment is emitted only when no
separator is present at all. -/
theorem c1_three_segments_false :
    Ancestors.render_section "a/b/c" ≠
      [SecCall.withCtx ⟨"a", "a"⟩, SecCall.withCtx ⟨"b", "a/b"⟩,
        SecCall.withCtx ⟨"c", "a/b/c"⟩] := by
  decide

/-- C1 (amended): on `"a/b/c"` (separator `/`) the section body is invoked
exactly twice, with the nested contexts `{name:"a", full:"a"}` then
`{name:"b", full:"a/b"}`, in that order. -/
theorem c1_two_segments :
    Ancestors.render_section "a/b/c" =
      [SecCall.withCtx ⟨"a", "a"⟩, SecCall.withCtx ⟨"b", "a/b"⟩] := by
  decide

/-- C2: `Ancestors::render_section` behaves as the specified left-to-right
separator scan: the empty text renders zero iterations, and every non-empty
text renders exactly the segments of `specSegments` (one iteration per
separator at offset `i` with `Segment{name: text[previous_end..i],
full: text[0..i]}`, one whole-text iteration when no separator occurs, and no
trailing whole-string segment otherwise), in order. -/
theorem c2_render_section_is_spec_scan (s : String) :
    (s = "" → Ancestors.render_section s = []) ∧
    (s ≠ "" → Ancestors.render_section s = (specSegments s.data).map SecCall.withCtx) := by
  constructor
  · rintro rfl; rfl
  · intro hne
    have hdata : s.data ≠ [] := by
      intro h
      exact hne (String.ext (h.trans rfl))
    have hempty : s.data.isEmpty = false := by
      simpa [List.isEmpty_iff] using hdata
    by_cases hany : s.data.any is_separator
    · simp [Ancestors.render_section, hempty, hany, specSegments,
        scanSegments_eq_specScan]
    · have hnil : sepIndices s.data = [] :=
        (sepIndicesAux_eq_nil_iff s.data 0).2 (by simpa using hany)
      have hmk : String.mk s.data = s := rfl
      simp [Ancestors.render_section, hempty, hany, specSegments,
        Ancestors.scanSegments, hnil, hmk]

/-- C2 witness at the concrete path `"a/b"`. -/
theorem c2_witness :
    ("a/b" : String) ≠ "" ∧
      Ancestors.render_section "a/b" =
        (specSegments ("a/b" : String).data).map SecCall.withCtx :=
  ⟨by decide, (c2_render_section_is_spec_scan "a/b").2 (by decide)⟩

/-- C8: direct rendering of a `PathSegments` value: a non-empty path text is
emitted as one separator character followed by the full text (escaped
respectively raw); the empty text renders nothing under both modes and is
falsy. -/
theorem c8_direct_rendering (s : String) :
    (s ≠ "" → Ancestors.render_escaped s = "/" ++ escapeHtml s ∧
      Ancestors.render_unescaped s = "/" ++ s) ∧
    (s = "" → Ancestors.render_escaped s = "" ∧ Ancestors.render_unescaped s = "" ∧
      Ancestors.is_truthy s = false) := by
  constructor
  · intro hne
    have hempty : s.isEmpty = false := by
      cases h : s.isEmpty with
      | false => rfl
      | true => exact absurd ((String.isEmpty_iff s).mp h) hne
    simp [Ancestors.render_escaped, Ancestors.render_unescaped, hempty]
  · rintro rfl
    exact ⟨rfl, rfl, rfl⟩

/-- C8 witness at the concrete path `"a"` and at the empty path. -/
theorem c8_witness :
    (("a" : String) ≠ "" ∧ Ancestors.render_escaped "a" = "/" ++ escapeHtml "a" ∧
      Ancestors.render_unescaped "a" = "/" ++ "a") ∧
    (Ancestors.render_escaped "" = "" ∧ Ancestors.render_unescaped "" = "" ∧
      Ancestors.is_truthy "" = false) :=
  ⟨⟨by decide, (c8_direct_rendering "a").1 (by decide)⟩,
    (c8_direct_rendering "").2 rfl⟩

/-- C10: consecutive separators are not collapsed: `"a//b"` yields a segment
with the empty name for the zero-length component between them, whose `full`
is the prefix up to the second separator; in general, whenever the text
contains a separator, the section body is invoked exactly once per separator
occurrence. -/
theorem c10_empty_component_segments :
    Ancestors.render_section "a//b" =
      [SecCall.withCtx ⟨"a", "a"⟩, SecCall.withCtx ⟨"", "a/"⟩] ∧
    ∀ s : String, s.data.any is_separator = true →
      (Ancestors.render_section s).length = s.data.countP is_separator := by
  constructor
  · decide
  · intro s hany
    have hempty : s.data.isEmpty = false := by
      cases h : s.data with
      | nil => rw [h] at hany; simp at hany
      | cons c rest => rfl
    simp [Ancestors.render_section, hempty, hany, Ancestors.scanSegments,
      sepIndices, length_sepIndicesAux]

/-- C10 witness for the general per-separator count, at `"x/y"`. -/
theorem c10_witness :
    ("x/y" : String).data.any is_separator = true ∧
      (Ancestors.render_section "x/y").length = ("x/y" : String).data.countP is_separator :=
  ⟨by decide, c10_empty_component_segments.2 "x/y" (by decide)⟩

/-- C3: `Any::is_truthy` is "non-empty" for the `List` and `Map` variants and
constantly false for `Number`, `String` and `DateTime`. -/
theorem c3_is_truthy_characterization :
    (∀ items : List Any, ((Any.list items).is_truthy = true ↔ items ≠ [])) ∧
    (∀ entries : List (String × Any), ((Any.map entries).is_truthy = true ↔ entries ≠ [])) ∧
    (∀ n : Float, (Any.number n).is_truthy = false) ∧
    (∀ s : String, (Any.string s).is_truthy = false) ∧
    (∀ dt : DateTime, (Any.dateTime dt).is_truthy = false) := by
  refine ⟨fun items => ?_, fun entries => ?_, fun _ => rfl, fun _ => rfl, fun _ => rfl⟩
  · simp [Any.is_truthy]
  · simp [Any.is_truthy]

/-- C6: `Any::render_section` renders a `List` section once per element in
order with the element as nested context, delegates a `Map` section to the
mapping's behaviour (one render with the map itself as context), and renders
the block exactly once without changing context for `Number`, `String` and
`DateTime`. -/
theorem c6_render_section_dispatch :
    (∀ items : List Any, (Any.list items).render_section = items.map SecCall.withCtx) ∧
    (∀ a b : Any, (Any.list [a, b]).render_section =
      [SecCall.withCtx a, SecCall.withCtx b]) ∧
    (∀ entries : List (String × Any),
      (Any.map entries).render_section = [SecCall.withCtx (Any.map entries)]) ∧
    (∀ n : Float, (Any.number n).render_section = [SecCall.plain]) ∧
    (∀ s : String, (Any.string s).render_section = [SecCall.plain]) ∧
    (∀ dt : DateTime, (Any.dateTime dt).render_section = [SecCall.plain]) :=
  ⟨fun _ => rfl, fun _ _ => rfl, fun _ => rfl, fun _ => rfl, fun _ => rfl, fun _ => rfl⟩

/-- C7: the four field-lookup operations of `Any` resolve a name exactly when
the value is a `Map` whose mapping contains the key; every other variant
reports not-found (`Ok(false)`) for every name, writing nothing (`none`). -/
theorem c7_field_lookup_only_map :
    (∀ a : Any, ∀ name : String, (∀ entries, a ≠ Any.map entries) →
      a.render_field_escaped name = none ∧ a.render_field_unescaped name = none ∧
      a.render_field_section name = none ∧ a.render_field_inverse name = none) ∧
    (∀ entries : List (String × Any), ∀ name : String,
      ((Any.map entries).render_field_escaped name).isSome = (lookupEntry entries name).isSome ∧
      ((Any.map entries).render_field_unescaped name).isSome = (lookupEntry entries name).isSome ∧
      ((Any.map entries).render_field_section name).isSome = (lookupEntry entries name).isSome ∧
      ((Any.map entries).render_field_inverse name).isSome = (lookupEntry entries name).isSome) := by
  constructor
  · intro a name h
    cases a with
    | map entries => exact absurd rfl (h entries)
    | number n => exact ⟨rfl, rfl, rfl, rfl⟩
    | string s => exact ⟨rfl, rfl, rfl, rfl⟩
    | dateTime dt => exact ⟨rfl, rfl, rfl, rfl⟩
    | list items => exact ⟨rfl, rfl, rfl, rfl⟩
  · intro entries name
    cases h : lookupEntry entries name <;>
      simp [Any.render_field_escaped, Any.render_field_unescaped,
        Any.render_field_section, Any.render_field_inverse, h]

/-- C7 witness: a non-`Map` value (here a number) reports not-found for a
concrete name, and a concrete map resolves a present key and misses an
absent one. -/
theorem c7_witness :
    ((Any.number 1.0).render_field_escaped "x" = none ∧
      (Any.number 1.0).render_field_unescaped "x" = none ∧
      (Any.number 1.0).render_field_section "x" = none ∧
      (Any.number 1.0).render_field_inverse "x" = none) ∧
    ((Any.map [("x", Any.number 1.0)]).render_field_escaped "x").isSome =
      (lookupEntry [("x", Any.number 1.0)] "x").isSome :=
  ⟨(c7_field_lookup_only_map.1 (Any.number 1.0) "x" (fun _ h => nomatch h)),
    (c7_field_lookup_only_map.2 [("x", Any.number 1.0)] "x").1⟩

theorem nums_getD_eq_zeroPad2 : ∀ n, n < 60 → NUMS.getD n "" = zeroPad2 n := by decide

theorem daysInMonth_le_31 (y : Int) (m : Nat) : daysInMonth y m ≤ 31 := by
  unfold daysInMonth
  split
  · split <;> omega
  · split <;> omega

/-- C4: `DateTime` field lookup resolves exactly the single-byte names
`y m d e H M S a b` (year as plain integer, month/day/hour/minute/second
zero-padded via the table, `e` the unpadded day, `a` the Sunday-indexed
weekday abbreviation, `b` the 0-indexed month abbreviation); every name whose
byte length is not one and every unrecognized single byte reports not-found.
On the value parsed from `"2020-03-05T07:08:09"` the nine fields render
`2020, 03, 05, 5, 07, 08, 09, Thu, Mar`. -/
theorem c4_date_field_lookup :
    (∀ dt : DateTime, ∀ name : List Nat, name.length ≠ 1 →
      dt.render_field_escaped name = none) ∧
    (∀ dt : DateTime, ∀ b : Nat,
      b ∉ [Char.toNat 'y', Char.toNat 'm', Char.toNat 'd', Char.toNat 'e',
        Char.toNat 'H', Char.toNat 'M', Char.toNat 'S', Char.toNat 'a', Char.toNat 'b'] →
      dt.render_field_escaped [b] = none) ∧
    DateTimeVisitor.visit_map "2020-03-05T07:08:09" = .ok ⟨⟨2020, 3, 5, 7, 8, 9⟩⟩ ∧
    (DateTime.mk ⟨2020, 3, 5, 7, 8, 9⟩).render_field_escaped [Char.toNat 'y'] = some "2020" ∧
    (DateTime.mk ⟨2020, 3, 5, 7, 8, 9⟩).render_field_escaped [Char.toNat 'm'] = some "03" ∧
    (DateTime.mk ⟨2020, 3, 5, 7, 8, 9⟩).render_field_escaped [Char.toNat 'd'] = some "05" ∧
    (DateTime.mk ⟨2020, 3, 5, 7, 8, 9⟩).render_field_escaped [Char.toNat 'e'] = some "5" ∧
    (DateTime.mk ⟨2020, 3, 5, 7, 8, 9⟩).render_field_escaped [Char.toNat 'H'] = some "07" ∧
    (DateTime.mk ⟨2020, 3, 5, 7, 8, 9⟩).render_field_escaped [Char.toNat 'M'] = some "08" ∧
    (DateTime.mk ⟨2020, 3, 5, 7, 8, 9⟩).render_field_escaped [Char.toNat 'S'] = some "09" ∧
    (DateTime.mk ⟨2020, 3, 5, 7, 8, 9⟩).render_field_escaped [Char.toNat 'a'] = some "Thu" ∧
    (DateTime.mk ⟨2020, 3, 5, 7, 8, 9⟩).render_field_escaped [Char.toNat 'b'] = some "Mar" := by
  refine ⟨?_, ?_, rfl, by decide, by decide, by decide, by decide, by decide,
    by decide, by decide, by decide, by decide⟩
  · intro dt name h
    simp [DateTime.render_field_escaped, h]
  · intro dt b hb
    have hb' : b ≠ 121 ∧ b ≠ 109 ∧ b ≠ 100 ∧ b ≠ 101 ∧ b ≠ 72 ∧ b ≠ 77 ∧
        b ≠ 83 ∧ b ≠ 97 ∧ b ≠ 98 := by
      simpa [Char.toNat, not_or] using hb
    obtain ⟨h1, h2, h3, h4, h5, h6, h7, h8, h9⟩ := hb'
    simp [DateTime.render_field_escaped, h1, h2, h3, h4, h5, h6, h7, h8, h9]

/-- C4 witness: a zero-length name and the unrecognized byte `z` at a
concrete date. -/
theorem c4_witness :
    (([] : List Nat).length ≠ 1 ∧
      DateTime.render_field_escaped ⟨⟨2020, 3, 5, 7, 8, 9⟩⟩ [] = none) ∧
    (Char.toNat 'z' ∉ [Char.toNat 'y', Char.toNat 'm', Char.toNat 'd', Char.toNat 'e',
        Char.toNat 'H', Char.toNat 'M', Char.toNat 'S', Char.toNat 'a', Char.toNat 'b'] ∧
      DateTime.render_field_escaped ⟨⟨2020, 3, 5, 7, 8, 9⟩⟩ [Char.toNat 'z'] = none) :=
  ⟨⟨by decide, c4_date_field_lookup.1 ⟨⟨2020, 3, 5, 7, 8, 9⟩⟩ [] (by decide)⟩,
    ⟨by decide, c4_date_field_lookup.2.1 ⟨⟨2020, 3, 5, 7, 8, 9⟩⟩ (Char.toNat 'z') (by decide)⟩⟩

/-- C5: `DateTimeVisitor::visit_map` tries the four parse formats in order
(ISO date-time, bare date defaulted to midnight, the space-separated format,
the offset-aware format converted to UTC with the offset dropped),
short-circuiting on the first success; when none match it fails with an error
naming the input text.  In particular `"2021-01-01T10:20:30+02:00"` parses to
the UTC-naive `2021-01-01T08:20:30`. -/
theorem c5_parse_fallback_chain :
    (∀ v : String, ∀ t, parseNaiveDateTimeIso v = some t →
      DateTimeVisitor.visit_map v = .ok ⟨t⟩) ∧
    (∀ v : String, ∀ ymd, parseNaiveDateTimeIso v = none → parseNaiveDate v = some ymd →
      DateTimeVisitor.visit_map v = .ok ⟨⟨ymd.1, ymd.2.1, ymd.2.2, 0, 0, 0⟩⟩) ∧
    (∀ v : String, ∀ t, parseNaiveDateTimeIso v = none → parseNaiveDate v = none →
      parseSpaceSeparated v = some t → DateTimeVisitor.visit_map v = .ok ⟨t⟩) ∧
    (∀ v : String, ∀ t, parseNaiveDateTimeIso v = none → parseNaiveDate v = none →
      parseSpaceSeparated v = none → parseFixedOffsetUtc v = some t →
      DateTimeVisitor.visit_map v = .ok ⟨t⟩) ∧
    (∀ v : String, parseNaiveDateTimeIso v = none → parseNaiveDate v = none →
      parseSpaceSeparated v = none → parseFixedOffsetUtc v = none →
      DateTimeVisitor.visit_map v = .error ("unable to parse date and time from " ++ v)) ∧
    DateTimeVisitor.visit_map "2021-01-01T10:20:30+02:00" = .ok ⟨⟨2021, 1, 1, 8, 20, 30⟩⟩ := by
  refine ⟨?_, ?_, ?_, ?_, ?_, rfl⟩ <;>
    · intros v t h1
      intros
      simp_all [DateTimeVisitor.visit_map]

/-- C5 witness: `"not-a-date"` matches none of the four formats and the error
names the input. -/
theorem c5_witness :
    (parseNaiveDateTimeIso "not-a-date" = none ∧ parseNaiveDate "not-a-date" = none ∧
      parseSpaceSeparated "not-a-date" = none ∧ parseFixedOffsetUtc "not-a-date" = none) ∧
    DateTimeVisitor.visit_map "not-a-date" =
      .error ("unable to parse date and time from " ++ "not-a-date") :=
  ⟨⟨rfl, rfl, rfl, rfl⟩,
    c5_parse_fallback_chain.2.2.2.2.1 "not-a-date" rfl rfl rfl rfl⟩

/-- C9: for every valid calendar date-time, every table index the field
lookup uses is in bounds — month, day, hour, minute and second index the
60-entry `NUMS` table and their entries are the zero-padded two-digit texts
of the values, the weekday index is within the 7-entry `WEEKDAYS` table and
the zero-indexed month within the 12-entry `MONTHS` table. -/
theorem c9_lookup_tables_cover_valid_dates (t : NaiveDateTime) (h : t.Valid) :
    (t.month < NUMS.length ∧ NUMS.getD t.month "" = zeroPad2 t.month) ∧
    (t.day < NUMS.length ∧ NUMS.getD t.day "" = zeroPad2 t.day) ∧
    (t.hour < NUMS.length ∧ NUMS.getD t.hour "" = zeroPad2 t.hour) ∧
    (t.minute < NUMS.length ∧ NUMS.getD t.minute "" = zeroPad2 t.minute) ∧
    (t.second < NUMS.length ∧ NUMS.getD t.second "" = zeroPad2 t.second) ∧
    t.weekdayFromSunday < WEEKDAYS.length ∧
    t.month0 < MONTHS.length := by
  obtain ⟨h1, h2, h3, h4, h5, h6, h7⟩ := h
  have hlen : NUMS.length = 60 := rfl
  have hd31 : t.day ≤ 31 := le_trans h4 (daysInMonth_le_31 t.year t.month)
  have hm : t.month < 60 := by omega
  have hd : t.day < 60 := by omega
  have hh : t.hour < 60 := by omega
  have hmi : t.minute < 60 := by omega
  have hs : t.second < 60 := by omega
  refine ⟨⟨by omega, nums_getD_eq_zeroPad2 _ hm⟩, ⟨by omega, nums_getD_eq_zeroPad2 _ hd⟩,
    ⟨by omega, nums_getD_eq_zeroPad2 _ hh⟩, ⟨by omega, nums_getD_eq_zeroPad2 _ hmi⟩,
    ⟨by omega, nums_getD_eq_zeroPad2 _ hs⟩, ?_, ?_⟩
  · have hpos : (0 : Int) < 7 := by norm_num
    have hlt := Int.emod_lt_of_pos (daysFromCivil t.year t.month t.day + 4) hpos
    have hnn := Int.emod_nonneg (daysFromCivil t.year t.month t.day + 4)
      (by norm_num : (7 : Int) ≠ 0)
    show ((daysFromCivil t.year t.month t.day + 4) % 7).toNat < WEEKDAYS.length
    have hw : WEEKDAYS.length = 7 := rfl
    omega
  · show t.month - 1 < MONTHS.length
    have : MONTHS.length = 12 := rfl
    omega

/-- C9 witness at the valid date-time 2020-03-05T07:08:09. -/
theorem c9_witness :
    (NaiveDateTime.mk 2020 3 5 7 8 9).Valid ∧
      ((NaiveDateTime.mk 2020 3 5 7 8 9).month < NUMS.length ∧
        NUMS.getD (NaiveDateTime.mk 2020 3 5 7 8 9).month "" =
          zeroPad2 (NaiveDateTime.mk 2020 3 5 7 8 9).month) :=
  ⟨by decide, (c9_lookup_tables_cover_valid_dates ⟨2020, 3, 5, 7, 8, 9⟩ (by decide)).1⟩
